import Mathlib

/-
Verification development for rpw/collector.py (revitpythonwrapper).

Shallow embedding notes:
  * Python dicts are modelled as association lists `List (String × α)` in
    insertion/iteration order, with unique keys expressed by `NodupKeys`.
  * Dynamically typed Python values are modelled by small tagged unions
    (`CValue` for ParameterFilter condition values, `FValue` for collector
    criterion values).  Python floats are carried as rationals; only their
    type tag and literal identity matter to the wrapper code.
  * The external Revit query engine (DB.FilteredElementCollector) mutates its
    handle in place and returns it; we model the handle as a value that is
    threaded through the code at every point the source performs such a call,
    so the state after a call is exactly what the source's aliasing produces.
  * Python exceptions are modelled by `PyError`; a function that can raise
    returns its (partially mutated) state together with `Option PyError`.
-/

/-- Dynamically typed condition values passed to ParameterFilter. -/
inductive CValue
| vstr (s : String)
| vint (n : Int)
| vfloat (q : ℚ)
| vbool (b : Bool)
deriving DecidableEq

/-- Python truthiness of a condition value. -/
def CValue.truthy : CValue → Bool
| .vstr s => decide (s ≠ "")
| .vint n => decide (n ≠ 0)
| .vfloat q => decide (q ≠ 0)
| .vbool b => b

/-- isinstance(v, str) for condition values. -/
def CValue.isStr : CValue → Bool
| .vstr _ => true
| _ => false

/-- isinstance(v, float) for condition values (Python ints and bools are not floats). -/
def CValue.isFloat : CValue → Bool
| .vfloat _ => true
| _ => false

/-- d.get(k): first binding of key k in an association-list dict. -/
def dictGet {α : Type} (d : List (String × α)) (k : String) : Option α :=
  (d.find? (fun p => p.1 == k)).map Prod.snd

/-- d[k] = v: replace the binding in place if the key exists, else append it
(the order semantics of assignment into a Python dict). -/
def dictSet {α : Type} (d : List (String × α)) (k : String) (v : α) : List (String × α) :=
  if d.any (fun p => p.1 == k) then
    d.map (fun p => if p.1 == k then (k, v) else p)
  else
    d ++ [(k, v)]

/-- d.pop(k): remove the binding of key k, or raise KeyError (modelled as `none`)
when the key is absent. -/
def popKey {α : Type} (d : List (String × α)) (k : String) : Option (List (String × α)) :=
  if d.any (fun p => p.1 == k) then some (d.filter (fun p => !(p.1 == k))) else none

/-- The keys of a dict, in iteration order. -/
def keys {α : Type} (d : List (String × α)) : List String := d.map Prod.fst

/-- A list of bindings is a real dict: its keys are pairwise distinct. -/
def NodupKeys {α : Type} (d : List (String × α)) : Prop := (keys d).Nodup

instance {α : Type} (d : List (String × α)) : Decidable (NodupKeys d) :=
  inferInstanceAs (Decidable (keys d).Nodup)

/-- ParameterFilter.RULES: comparator-key to factory-method-name mapping
(source lines 215-224). -/
def ParameterFilter.RULES : List (String × String) :=
  [("equals", "CreateEqualsRule"),
   ("contains", "CreateContainsRule"),
   ("begins", "CreateBeginsWithRule"),
   ("ends", "CreateEndsWithRule"),
   ("greater", "CreateGreaterRule"),
   ("greater_equal", "CreateGreaterOrEqualRule"),
   ("less", "CreateLessRule"),
   ("less_equal", "CreateLessOrEqualRule")]

/-- ParameterFilter.CASE_SENSITIVE (source line 226). -/
def ParameterFilter.CASE_SENSITIVE : Bool := true

/-- ParameterFilter.FLOAT_PRECISION = 0.0013020833333333 (source line 227). -/
def ParameterFilter.FLOAT_PRECISION : ℚ := 13020833333333 / 10000000000000000

/-- The low-level rule produced by a ParameterFilterRuleFactory.Create*Rule call:
the factory method's name, the parameter id, and the extra positional args
(source line 256: filter_value_rule(parameter_id, *args)). -/
structure FilterRuleArgs where
  factory : String
  paramId : ℕ
  args : List CValue
deriving DecidableEq

/-- DB.ElementParameterFilter(filter_rule, reverse) (source line 258).
`reverse` keeps the dynamically-typed value the source passed. -/
structure ElementParameterFilter where
  rule : FilterRuleArgs
  reverse : CValue
deriving DecidableEq

/-- The ParameterFilter wrapper object after __init__ (source lines 229-258).
`revit_object` is `none` when the loop body never ran, because `__init__` never
calls the base-class constructor, so `_revit_object` stays an unset attribute. -/
structure ParameterFilter where
  parameter_id : ℕ
  conditions : List (String × CValue)
  case_sensitive : CValue
  reverse : CValue
  precision : CValue
  revit_object : Option ElementParameterFilter
deriving DecidableEq

/-- conditions.get('case_sensitive', ParameterFilter.CASE_SENSITIVE) (source line 232). -/
def caseSensitiveOf (conditions : List (String × CValue)) : CValue :=
  (dictGet conditions ("case_sensitive")).getD (CValue.vbool ParameterFilter.CASE_SENSITIVE)

/-- conditions.get('reverse', False) (source line 233). -/
def reverseOf (conditions : List (String × CValue)) : CValue :=
  (dictGet conditions ("reverse")).getD (CValue.vbool false)

/-- conditions.get('precision', ParameterFilter.FLOAT_PRECISION) (source line 234). -/
def precisionOf (conditions : List (String × CValue)) : CValue :=
  (dictGet conditions ("precision")).getD (CValue.vfloat ParameterFilter.FLOAT_PRECISION)

/-- valid_rule = [x for x in conditions if x in ParameterFilter.RULES]
(source line 236), kept with the condition values attached: the loop reads
conditions[condition_name] back, which for a dict is the same pair. -/
def validConds (conditions : List (String × CValue)) : List (String × CValue) :=
  conditions.filter (fun p => (dictGet ParameterFilter.RULES p.1).isSome)

/-- One pass of the loop body, source lines 238-258: pick the factory name from
RULES, build args = [condition_value] extended by the case_sensitive flag for a
string operand and by the literal tolerance 1.0 for a float operand, and wrap
the resulting rule with the reverse flag into an ElementParameterFilter.
(The logger.critical calls are logging, out of scope.) -/
def buildRule (parameter_id : ℕ) (case_sensitive reverse : CValue)
    (p : String × CValue) : ElementParameterFilter :=
  let rule_factory_name := (dictGet ParameterFilter.RULES p.1).getD ("")
  let args0 := [p.2]
  let args1 := if p.2.isStr then args0 ++ [case_sensitive] else args0
  let args2 := if p.2.isFloat then args1 ++ [CValue.vfloat 1] else args1
  { rule := { factory := rule_factory_name, paramId := parameter_id, args := args2 },
    reverse := reverse }

/-- ParameterFilter.__init__ (source lines 229-258).  The loop reassigns
self._revit_object on every valid comparator key, so the stored predicate is
that of the last one in iteration order; with no valid key the attribute is
never assigned (modelled as `none`). -/
def ParameterFilter.init (parameter_id : ℕ)
    (conditions : List (String × CValue)) : ParameterFilter :=
  { parameter_id := parameter_id
    conditions := conditions
    case_sensitive := caseSensitiveOf conditions
    reverse := reverseOf conditions
    precision := precisionOf conditions
    revit_object := (validConds conditions).foldl
      (fun _ p => some (buildRule parameter_id (caseSensitiveOf conditions)
        (reverseOf conditions) p)) none }

/-- An element of the external document/store, with the attributes the six
query-engine restrictions inspect (model of the out-of-scope element store). -/
structure Element where
  klass : ℕ
  category : ℕ
  isElementTypeAttr : Bool
  viewIndependentAttr : Bool
  params : List (ℕ × CValue)
deriving DecidableEq

/-- Dynamically typed values a collector criterion can carry. -/
inductive FValue
| vstr (s : String)
| vclass (c : ℕ)
| vcat (c : ℕ)
| vint (n : Int)
| vbool (b : Bool)
| vparamFilter (pf : ParameterFilter)
deriving DecidableEq

/-- One restriction recorded on a query handle: which engine operation was
invoked and with which argument. -/
inductive Restriction
| ofClass (v : FValue)
| ofCategory (v : FValue)
| notElementType
| elementType
| viewIndependent
| passes (p : ElementParameterFilter)
deriving DecidableEq

/-- Python exceptions the embedded code can raise. -/
inductive PyError
| keyError (k : String)
| attributeError (attr : String)
| typeError
| rpwException (msg : String)
deriving DecidableEq

/-- The Revit FilteredElementCollector handle: the document it queries plus the
restrictions applied to it so far, in application order.  Engine calls mutate
the handle in place in Revit; here every such call produces the updated value,
which is threaded exactly where the source lets the mutation flow. -/
structure FilteredElementCollector where
  doc : List Element
  applied : List Restriction
deriving DecidableEq

/-- In-place application of one more restriction to the handle. -/
def pushR (c : FilteredElementCollector) (r : Restriction) : FilteredElementCollector :=
  { c with applied := c.applied ++ [r] }

/-- Model of the external engine's evaluation of an ElementParameterFilter.
The wrapper treats this predicate as opaque (the spec's black-box query
engine); a simple concrete evaluation is supplied so handles have an
executable element-set denotation.  Nothing below depends on its details. -/
def evalEPF (p : ElementParameterFilter) (e : Element) : Bool :=
  let base :=
    match (e.params.find? (fun q => q.1 == p.rule.paramId)).map Prod.snd, p.rule.args with
    | some pv, v :: _ =>
      match p.rule.factory with
      | "CreateEqualsRule" => pv == v
      | "CreateContainsRule" =>
        match pv, v with
        | CValue.vstr a, CValue.vstr b => decide ((a.splitOn b).length > 1)
        | _, _ => false
      | "CreateBeginsWithRule" =>
        match pv, v with
        | CValue.vstr a, CValue.vstr b => a.startsWith b
        | _, _ => false
      | "CreateEndsWithRule" =>
        match pv, v with
        | CValue.vstr a, CValue.vstr b => a.endsWith b
        | _, _ => false
      | "CreateGreaterRule" =>
        match pv, v with
        | CValue.vint a, CValue.vint b => decide (a > b)
        | CValue.vfloat a, CValue.vfloat b => decide (a > b)
        | _, _ => false
      | "CreateGreaterOrEqualRule" =>
        match pv, v with
        | CValue.vint a, CValue.vint b => decide (a ≥ b)
        | CValue.vfloat a, CValue.vfloat b => decide (a ≥ b)
        | _, _ => false
      | "CreateLessRule" =>
        match pv, v with
        | CValue.vint a, CValue.vint b => decide (a < b)
        | CValue.vfloat a, CValue.vfloat b => decide (a < b)
        | _, _ => false
      | "CreateLessOrEqualRule" =>
        match pv, v with
        | CValue.vint a, CValue.vint b => decide (a ≤ b)
        | CValue.vfloat a, CValue.vfloat b => decide (a ≤ b)
        | _, _ => false
      | _ => false
    | _, _ => false
  if p.reverse.truthy then !base else base

/-- Whether an element satisfies one applied restriction (model of the
out-of-scope engine semantics: each restriction is a pointwise predicate). -/
def Element.satisfies (e : Element) : Restriction → Bool
| .ofClass v => match v with | .vclass c => e.klass == c | _ => false
| .ofCategory v => match v with | .vcat c => e.category == c | _ => false
| .notElementType => !e.isElementTypeAttr
| .elementType => e.isElementTypeAttr
| .viewIndependent => e.viewIndependentAttr
| .passes p => evalEPF p e

/-- Enumerating a handle: elements of the document satisfying every applied
restriction, in document order (models `[element for element in collector]`). -/
def FilteredElementCollector.toElements (c : FilteredElementCollector) : List Element :=
  c.doc.filter (fun e => c.applied.all (fun r => Element.satisfies e r))

/-- _Filter.MAP (source lines 94-101). -/
def FilterMAP : List (String × String) :=
  [("of_class", "OfClass"),
   ("of_category", "OfCategory"),
   ("is_element", "WhereElementIsNotElementType"),
   ("is_element_type", "WhereElementIsElementType"),
   ("is_view_independent", "WhereElementIsViewIndependent"),
   ("parameter_filter", "WherePasses")]

/-- Argument passed to an engine method: either a raw criterion value or the
predicate object extracted from a ParameterFilter. -/
inductive InvokeArg
| val (v : FValue)
| pred (p : ElementParameterFilter)
deriving DecidableEq

/-- The engine's method table: which restriction a named method records for a
given argument shape.  A call with the wrong arity or argument kind is a
TypeError (model of the external engine's signature checking). -/
def invokeRes (method : String) (arg : Option InvokeArg) : Except PyError Restriction :=
  match method, arg with
  | "OfClass", some (InvokeArg.val v) => Except.ok (Restriction.ofClass v)
  | "OfCategory", some (InvokeArg.val v) => Except.ok (Restriction.ofCategory v)
  | "WherePasses", some (InvokeArg.pred p) => Except.ok (Restriction.passes p)
  | "WhereElementIsNotElementType", none => Except.ok Restriction.notElementType
  | "WhereElementIsElementType", none => Except.ok Restriction.elementType
  | "WhereElementIsViewIndependent", none => Except.ok Restriction.viewIndependent
  | _, _ => Except.error PyError.typeError

/-- Calling collector_filter(...) on the handle: on success the restriction is
applied in place. -/
def invokeMethod (c : FilteredElementCollector) (method : String)
    (arg : Option InvokeArg) : Except PyError FilteredElementCollector :=
  match invokeRes method arg with
  | Except.ok r => Except.ok (pushR c r)
  | Except.error e => Except.error e

/-- One iteration of the loop body in _Filter.chain (source lines 138-149):
`collector_filter = getattr(collector, _Filter.MAP[filter_name])` raises
KeyError for a name outside MAP (line 138) — so the explicit check on lines
140-141, which would raise RPW_Exception, is unreachable; a bool value invokes
the zero-argument method only when True (lines 143-145); a ParameterFilter
value passes its `_revit_object` attribute, raising AttributeError when that
attribute was never assigned (lines 146-147); any other value is passed as the
single argument (lines 148-149).  Returns the handle (mutated in place on a
successful engine call) together with the exception, if any. -/
def applyFilterStep (p : String × FValue) (collector : FilteredElementCollector) :
    FilteredElementCollector × Option PyError :=
  match dictGet FilterMAP p.1 with
  | none => (collector, some (PyError.keyError p.1))
  | some method =>
    if dictGet FilterMAP p.1 = none then
      (collector, some (PyError.rpwException p.1))
    else
      match p.2 with
      | FValue.vbool b =>
        if b then
          match invokeMethod collector method none with
          | Except.ok c2 => (c2, none)
          | Except.error e => (collector, some e)
        else
          (collector, none)
      | FValue.vparamFilter pf =>
        match pf.revit_object with
        | none => (collector, some (PyError.attributeError ("_revit_object")))
        | some epf =>
          match invokeMethod collector method (some (InvokeArg.pred epf)) with
          | Except.ok c2 => (c2, none)
          | Except.error e => (collector, some e)
      | v =>
        match invokeMethod collector method (some (InvokeArg.val v)) with
        | Except.ok c2 => (c2, none)
        | Except.error e => (collector, some e)

/-- The outcome of one loop iteration as a function of the pair alone: the
handle is only ever extended by the returned restriction (if any). -/
def stepRes (p : String × FValue) : Except PyError (Option Restriction) :=
  match dictGet FilterMAP p.1 with
  | none => Except.error (PyError.keyError p.1)
  | some method =>
    match p.2 with
    | FValue.vbool b =>
      if b then
        match invokeRes method none with
        | Except.ok r => Except.ok (some r)
        | Except.error e => Except.error e
      else
        Except.ok none
    | FValue.vparamFilter pf =>
      match pf.revit_object with
      | none => Except.error (PyError.attributeError ("_revit_object"))
      | some epf =>
        match invokeRes method (some (InvokeArg.pred epf)) with
        | Except.ok r => Except.ok (some r)
        | Except.error e => Except.error e
    | v =>
      match invokeRes method (some (InvokeArg.val v)) with
      | Except.ok r => Except.ok (some r)
      | Except.error e => Except.error e

/-- _Filter.chain's loop and recursion (source lines 121-153).  `items` is the
remainder of the `for filter_name, filter_value in filters.iteritems()`
iteration, `stack` is the current `filter_stack`, and `collector` the current
(in-place mutated) handle.  Each iteration runs the body (applyFilterStep),
pops the processed name from the stack, recurses on the popped stack as both
the new filters and its own stack (line 151), and then — because the source
loop does NOT stop after the recursion — continues with the next item.  An
exception unwinds immediately, carrying the handle state already produced. -/
def chainLoop : List (String × FValue) → List (String × FValue) →
    FilteredElementCollector → FilteredElementCollector × Option PyError
| [], _, collector => (collector, none)
| p :: rest, stack, collector =>
  match applyFilterStep p collector with
  | (c1, some e) => (c1, some e)
  | (c1, none) =>
    match hpop : popKey stack p.1 with
    | none => (c1, some (PyError.keyError p.1))
    | some stack2 =>
      match chainLoop stack2 stack2 c1 with
      | (c2, some e) => (c2, some e)
      | (c2, none) => chainLoop rest stack2 c2
termination_by _ stack _ => stack.length
decreasing_by
  all_goals
    unfold popKey at hpop
    by_cases hany : stack.any (fun q => q.1 == p.1) = true
    · rw [if_pos hany] at hpop
      rcases List.any_eq_true.mp hany with ⟨x, hx, hpx⟩
      have hlt : (stack.filter (fun q => !(q.1 == p.1))).length < stack.length := by
        refine List.length_filter_lt_length_iff_exists.mpr ⟨x, hx, ?_⟩
        simp [hpx]
      cases hpop
      exact hlt
    · rw [if_neg hany] at hpop
      cases hpop

/-- _Filter.chain entry (source lines 121-136): filter_stack = copy(filters),
then the loop runs over filters with the stack initially equal to it. -/
def chainCall (filters : List (String × FValue)) (collector : FilteredElementCollector) :
    FilteredElementCollector × Option PyError :=
  chainLoop filters filters collector

/-- Structural companion of `chainCall`: on a dict with distinct keys the
stack always equals the remaining items, so chain's recursion specializes to
this fuel-free form (see `chainCall_eq_chainNodup`).  Used so that concrete
runs of the chain reduce inside the kernel. -/
def chainNodup : List (String × FValue) → FilteredElementCollector →
    FilteredElementCollector × Option PyError
| [], c => (c, none)
| p :: rest, c =>
  match applyFilterStep p c with
  | (c1, some e) => (c1, some e)
  | (c1, none) =>
    match chainNodup rest c1 with
    | (c2, some e) => (c2, some e)
    | (c2, none) => chainNodup rest c2

/-- Modelled from the spec: the Filter Chain "treated as a fold, not inherent
recursion" — remove one (name, value) pair at a time, apply its restriction
once to the current handle, and continue with the rest, stopping at the first
failure.  Each criterion is applied exactly once.  Shares the per-criterion
step with the embedded code so that only the once-versus-repeated application
is compared. -/
def chainFoldSpec : List (String × FValue) → FilteredElementCollector →
    FilteredElementCollector × Option PyError
| [], c => (c, none)
| p :: rest, c =>
  match applyFilterStep p c with
  | (c1, some e) => (c1, some e)
  | (c1, none) => chainFoldSpec rest c1

/-- The restrictions the once-each fold records for a criteria list, stopping
at the first failing criterion. -/
def foldTrace : List (String × FValue) → List Restriction
| [] => []
| p :: rest =>
  match stepRes p with
  | Except.error _ => []
  | Except.ok none => foldTrace rest
  | Except.ok (some r) => r :: foldTrace rest

/-- Coercion of one key's string shorthand (the two identical blocks of
coerce_filter_values, source lines 170-176): `filters.get(key)`, and when the
value is a truthy string, `filters[key] = resolve(value)` — an in-place update
of the very dict the caller handed in. -/
def coerceKey (resolve : String → FValue) (key : String)
    (filters : List (String × FValue)) : List (String × FValue) :=
  match dictGet filters key with
  | some (FValue.vstr s) => if s ≠ "" then dictSet filters key (resolve s) else filters
  | _ => filters

/-- _Filter.coerce_filter_values (source lines 155-178), parameterized by the
two external resolution registries: BuiltInCategoryEnum.by_name for
'of_category' and getattr(DB, ·) for 'of_class'.  The source mutates the
passed dict in place and returns it, so the returned dict IS the caller's
dict after the call. -/
def coerce_filter_values (byName dbattr : String → ℕ)
    (filters : List (String × FValue)) : List (String × FValue) :=
  let filters1 := coerceKey (fun s => FValue.vcat (byName s)) ("of_category") filters
  coerceKey (fun s => FValue.vclass (dbattr s)) ("of_class") filters1

/-- The Collector's mutable state: the wrapped query handle `_revit_object`,
the materialized `elements`, and the accumulated `_filters` criteria dict. -/
structure Collector where
  revit_object : FilteredElementCollector
  elements : List Element
  filters : List (String × FValue)
deriving DecidableEq

/-- The criteria dict after the merge loop of _Filter.__call__ (source lines
113-114): each coerced (key, value) pair is assigned into the collector's
accumulated `_filters`, before any restriction is attempted. -/
def mergedFilters (byName dbattr : String → ℕ) (col : Collector)
    (kwargs : List (String × FValue)) : List (String × FValue) :=
  (coerce_filter_values byName dbattr kwargs).foldl
    (fun acc p => dictSet acc p.1 p.2) col.filters

/-- _Filter.__call__ (source lines 106-119): coerce the kwargs, merge them into
the collector's accumulated filters, run the chain over the FULL accumulated
dict on the (shared, in-place mutated) handle, and on success replace
`elements` by the enumeration of the chained handle.  An exception from the
chain propagates; the merge and any handle mutation already performed persist,
while `elements` keeps its prior value. -/
def Collector.filterCall (byName dbattr : String → ℕ) (col : Collector)
    (kwargs : List (String × FValue)) : Collector × Option PyError :=
  let merged := mergedFilters byName dbattr col kwargs
  match chainCall merged col.revit_object with
  | (fec, some e) => ({ col with filters := merged, revit_object := fec }, some e)
  | (fec, none) =>
    ({ col with
        filters := merged
        revit_object := fec
        elements := fec.toElements }, none)

/-- The handle produced by one loop iteration: unchanged, or extended by the
iteration's restriction. -/
def stepApply (p : String × FValue) (c : FilteredElementCollector) :
    FilteredElementCollector :=
  match stepRes p with
  | Except.ok (some r) => pushR c r
  | _ => c

/-- How one string shorthand is resolved by coercion: a truthy (nonempty)
string goes through the registry, every other value is untouched. -/
def coerceShorthand (resolve : String → FValue) (v : FValue) : FValue :=
  match v with
  | FValue.vstr s => if s ≠ "" then resolve s else v
  | _ => v

/-- Concrete category-name registry for closed instances. -/
def byName0 : String → ℕ := fun _ => 7

/-- Concrete class-namespace registry for closed instances. -/
def dbattr0 : String → ℕ := fun _ => 9

/-- A concrete element instance. -/
def elem0 : Element :=
  { klass := 1, category := 2, isElementTypeAttr := false,
    viewIndependentAttr := false, params := [] }

/-- A concrete type-definition element. -/
def elem1 : Element :=
  { klass := 1, category := 2, isElementTypeAttr := true,
    viewIndependentAttr := true, params := [] }

/-- A handle over the empty document. -/
def fec0 : FilteredElementCollector := { doc := [], applied := [] }

/-- A handle over a two-element document. -/
def fec1 : FilteredElementCollector := { doc := [elem0, elem1], applied := [] }

/-- A freshly constructed collector over the empty document. -/
def col0 : Collector := { revit_object := fec0, elements := [], filters := [] }

/-- A freshly constructed collector over a nonempty document. -/
def col1 : Collector := { revit_object := fec1, elements := [], filters := [] }

/-- A collector that already holds criteria and elements. -/
def col2 : Collector :=
  { revit_object := fec1, elements := [elem0],
    filters := [("of_class", FValue.vclass 1)] }

/-- A two-criterion dict for the chain-versus-fold counterexample. -/
def cex3 : List (String × FValue) :=
  [("of_class", FValue.vclass 1), ("of_category", FValue.vcat 2)]

/-- The zero-argument restriction each boolean criterion name stands for. -/
def boolRestriction : String → Restriction
| "is_element" => Restriction.notElementType
| "is_element_type" => Restriction.elementType
| "is_view_independent" => Restriction.viewIndependent
| _ => Restriction.notElementType

/-- A binding with the key removed loses at least one entry. -/
theorem popKey_length {α : Type} {d : List (String × α)} {k : String}
    {d2 : List (String × α)} (h : popKey d k = some d2) : d2.length < d.length := by
  unfold popKey at h
  by_cases hany : d.any (fun p => p.1 == k) = true
  · rw [if_pos hany] at h
    rcases List.any_eq_true.mp hany with ⟨x, hx, hpx⟩
    have hlt : (d.filter (fun p => !(p.1 == k))).length < d.length := by
      refine List.length_filter_lt_length_iff_exists.mpr ⟨x, hx, ?_⟩
      simp [hpx]
    cases h
    exact hlt
  · rw [if_neg hany] at h
    cases h

/-- chainLoop on an exhausted iteration returns the handle unchanged. -/
theorem chainLoop_nil (stack : List (String × FValue)) (c : FilteredElementCollector) :
    chainLoop [] stack c = (c, none) := by
  rw [chainLoop]

/-- One unfolding of chainLoop's loop iteration. -/
theorem chainLoop_cons (p : String × FValue) (rest stack : List (String × FValue))
    (c : FilteredElementCollector) :
    chainLoop (p :: rest) stack c =
      (match applyFilterStep p c with
       | (c1, some e) => (c1, some e)
       | (c1, none) =>
         match popKey stack p.1 with
         | none => (c1, some (PyError.keyError p.1))
         | some stack2 =>
           match chainLoop stack2 stack2 c1 with
           | (c2, some e) => (c2, some e)
           | (c2, none) => chainLoop rest stack2 c2) := by
  rw [chainLoop]
  rcases h1 : applyFilterStep p c with ⟨c1, _ | e⟩
  · rcases h2 : popKey stack p.1 with _ | stack2
    · rfl
    · rcases h3 : chainLoop stack2 stack2 c1 with ⟨c2, _ | e2⟩ <;> rfl
  · rfl

/-- chain on an empty criteria dict returns the handle unchanged. -/
theorem chainCall_nil (c : FilteredElementCollector) : chainCall [] c = (c, none) :=
  chainLoop_nil [] c

/-- Popping the head key of a dict with distinct keys leaves exactly the tail. -/
theorem popKey_cons {α : Type} (p : String × α) (rest : List (String × α))
    (h : p.1 ∉ keys rest) : popKey (p :: rest) p.1 = some rest := by
  unfold popKey
  rw [if_pos (by simp)]
  congr 1
  rw [List.filter_cons_of_neg (by simp)]
  apply List.filter_eq_self.mpr
  intro q hq
  simp only [Bool.not_eq_true', beq_eq_false_iff_ne, ne_eq]
  intro hqp
  apply h
  simp only [keys]
  exact hqp ▸ List.mem_map_of_mem Prod.fst hq

/-- Distinct keys propagate to the tail of a dict. -/
theorem nodupKeys_cons {α : Type} {p : String × α} {rest : List (String × α)}
    (h : NodupKeys (p :: rest)) : p.1 ∉ keys rest ∧ NodupKeys rest := by
  simp only [NodupKeys, keys, List.map_cons, List.nodup_cons] at h
  exact ⟨fun hm => h.1 (by simpa [keys] using hm), h.2⟩

/-- On a real dict (distinct keys) the source's pop-and-recurse chain computes
exactly what its structural companion computes: the stack always coincides
with the items still to be iterated. -/
theorem chainCall_eq_chainNodup (l : List (String × FValue)) (hnd : NodupKeys l)
    (c : FilteredElementCollector) : chainCall l c = chainNodup l c := by
  induction l generalizing c with
  | nil => rw [chainCall_nil, chainNodup]
  | cons p rest ih =>
    obtain ⟨hk, hnd2⟩ := nodupKeys_cons hnd
    show chainLoop (p :: rest) (p :: rest) c = chainNodup (p :: rest) c
    rw [chainLoop_cons, chainNodup, popKey_cons p rest hk]
    rcases h1 : applyFilterStep p c with ⟨c1, _ | e⟩
    · dsimp only
      have e1 : chainLoop rest rest c1 = chainNodup rest c1 := ih hnd2 c1
      rw [e1]
      rcases h2 : chainNodup rest c1 with ⟨c2, _ | e2⟩
      · exact ih hnd2 c2
      · rfl
    · rfl

/-- Whether a loop iteration raises, does nothing, or applies one restriction
depends only on the (name, value) pair; the handle is simply extended. -/
theorem step_spec (p : String × FValue) (c : FilteredElementCollector) :
    applyFilterStep p c =
      (match stepRes p with
       | Except.error e => (c, some e)
       | Except.ok none => (c, none)
       | Except.ok (some r) => (pushR c r, none)) := by
  unfold applyFilterStep stepRes
  rcases hm : dictGet FilterMAP p.1 with _ | method
  · rfl
  · dsimp only
    rw [if_neg (by simp)]
    rcases hv : p.2 with s | cc | cc | n | b | pf
    · rcases hr : invokeRes method (some (InvokeArg.val (FValue.vstr s))) with e | r <;>
        simp [invokeMethod, hr]
    · rcases hr : invokeRes method (some (InvokeArg.val (FValue.vclass cc))) with e | r <;>
        simp [invokeMethod, hr]
    · rcases hr : invokeRes method (some (InvokeArg.val (FValue.vcat cc))) with e | r <;>
        simp [invokeMethod, hr]
    · rcases hr : invokeRes method (some (InvokeArg.val (FValue.vint n))) with e | r <;>
        simp [invokeMethod, hr]
    · cases b
      · rfl
      · rcases hr : invokeRes method none with e | r <;> simp [invokeMethod, hr]
    · dsimp only
      rcases ho : pf.revit_object with _ | epf
      · rfl
      · dsimp only
        rcases hr : invokeRes method (some (InvokeArg.pred epf)) with e | r <;>
          simp [invokeMethod, hr]

/-- stepApply never changes the document. -/
theorem stepApply_doc (p : String × FValue) (c : FilteredElementCollector) :
    (stepApply p c).doc = c.doc := by
  unfold stepApply
  rcases stepRes p with e | _ | r <;> rfl

/-- stepApply appends exactly the iteration's restrictions. -/
theorem stepApply_applied {p : String × FValue} {r : Option Restriction}
    (h : stepRes p = Except.ok r) (c : FilteredElementCollector) :
    (stepApply p c).applied = c.applied ++ r.toList := by
  unfold stepApply
  rw [h]
  rcases r with _ | r
  · simp
  · rfl

/-- A failing iteration aborts the fold with the handle unchanged. -/
theorem fold_cons_err {p : String × FValue} {rest : List (String × FValue)}
    {e : PyError} (h : stepRes p = Except.error e) (c : FilteredElementCollector) :
    chainFoldSpec (p :: rest) c = (c, some e) := by
  rw [chainFoldSpec, step_spec, h]

/-- A successful iteration advances the fold on the stepped handle. -/
theorem fold_cons_ok {p : String × FValue} {rest : List (String × FValue)}
    {r : Option Restriction} (h : stepRes p = Except.ok r) (c : FilteredElementCollector) :
    chainFoldSpec (p :: rest) c = chainFoldSpec rest (stepApply p c) := by
  rw [chainFoldSpec, step_spec, h]
  unfold stepApply
  rw [h]
  rcases r with _ | r <;> rfl

/-- A failing head criterion empties the fold's trace. -/
theorem foldTrace_cons_err {p : String × FValue} {rest : List (String × FValue)}
    {e : PyError} (h : stepRes p = Except.error e) :
    foldTrace (p :: rest) = [] := by
  rw [foldTrace, h]

/-- A successful head criterion contributes its restrictions to the trace. -/
theorem foldTrace_cons_ok {p : String × FValue} {rest : List (String × FValue)}
    {r : Option Restriction} (h : stepRes p = Except.ok r) :
    foldTrace (p :: rest) = r.toList ++ foldTrace rest := by
  rw [foldTrace, h]
  rcases r with _ | r <;> rfl

/-- Whether and how the fold fails depends only on the criteria, not on the
starting handle. -/
theorem fold_err_indep (l : List (String × FValue)) :
    ∀ c c' : FilteredElementCollector,
      (chainFoldSpec l c).2 = (chainFoldSpec l c').2 := by
  induction l with
  | nil => intro c c'; rfl
  | cons p rest ih =>
    intro c c'
    rcases hs : stepRes p with e | r
    · rw [fold_cons_err hs, fold_cons_err hs]
    · rw [fold_cons_ok hs, fold_cons_ok hs]
      exact ih _ _

/-- The fold preserves the document and appends exactly its trace. -/
theorem fold_state (l : List (String × FValue)) :
    ∀ c : FilteredElementCollector,
      (chainFoldSpec l c).1.doc = c.doc ∧
      (chainFoldSpec l c).1.applied = c.applied ++ foldTrace l := by
  induction l with
  | nil => intro c; exact ⟨rfl, (List.append_nil _).symm⟩
  | cons p rest ih =>
    intro c
    rcases hs : stepRes p with e | r
    · rw [fold_cons_err hs, foldTrace_cons_err hs]
      exact ⟨rfl, (List.append_nil _).symm⟩
    · rw [fold_cons_ok hs, foldTrace_cons_ok hs]
      obtain ⟨hd, ha⟩ := ih (stepApply p c)
      refine ⟨by rw [hd, stepApply_doc], ?_⟩
      rw [ha, stepApply_applied hs, List.append_assoc]

/-- A failing iteration aborts the structural chain with the handle unchanged. -/
theorem chainNodup_cons_err {p : String × FValue} {rest : List (String × FValue)}
    {e : PyError} (h : stepRes p = Except.error e) (c : FilteredElementCollector) :
    chainNodup (p :: rest) c = (c, some e) := by
  rw [chainNodup, step_spec, h]

/-- A successful iteration of the structural chain: run the tail once from the
stepped handle, and if that run succeeded run the tail again from its result. -/
theorem chainNodup_cons_ok {p : String × FValue} {rest : List (String × FValue)}
    {r : Option Restriction} (h : stepRes p = Except.ok r) (c : FilteredElementCollector) :
    chainNodup (p :: rest) c =
      (match chainNodup rest (stepApply p c) with
       | (c2, some e) => (c2, some e)
       | (c2, none) => chainNodup rest c2) := by
  rw [chainNodup, step_spec, h]
  unfold stepApply
  rw [h]
  rcases r with _ | r <;> rfl

/-- Main equivalence: the chain fails exactly when the once-each fold fails,
preserves the document, and the restrictions it appends to the handle are the
fold's restrictions up to multiplicity (each applied at least once, possibly
repeatedly, never anything else). -/
theorem chainNodup_fold (l : List (String × FValue)) :
    ∀ c : FilteredElementCollector,
      (chainNodup l c).2 = (chainFoldSpec l c).2 ∧
      (chainNodup l c).1.doc = c.doc ∧
      ∃ tr, (chainNodup l c).1.applied = c.applied ++ tr ∧
        ∀ x, (x ∈ tr ↔ x ∈ foldTrace l) := by
  induction l with
  | nil =>
    intro c
    exact ⟨rfl, rfl, [], (List.append_nil _).symm, fun x => Iff.rfl⟩
  | cons p rest ih =>
    intro c
    rcases hs : stepRes p with e | r
    · rw [chainNodup_cons_err hs, fold_cons_err hs, foldTrace_cons_err hs]
      exact ⟨rfl, rfl, [], (List.append_nil _).symm, fun x => Iff.rfl⟩
    · rw [chainNodup_cons_ok hs, fold_cons_ok hs, foldTrace_cons_ok hs]
      obtain ⟨E1, D1, tr1, A1, M1⟩ := ih (stepApply p c)
      rcases hrec : chainNodup rest (stepApply p c) with ⟨c2, e2⟩
      rw [hrec] at E1 D1 A1
      rcases e2 with _ | e
      · obtain ⟨E2, D2, tr2, A2, M2⟩ := ih c2
        dsimp only
        refine ⟨?_, ?_, r.toList ++ tr1 ++ tr2, ?_, ?_⟩
        · rw [E2, fold_err_indep rest c2 (stepApply p c), ← E1]
        · rw [D2, D1, stepApply_doc]
        · rw [A2, A1, stepApply_applied hs]
          simp [List.append_assoc]
        · intro x
          simp only [List.mem_append, M1 x, M2 x]
          tauto
      · dsimp only
        refine ⟨E1.symm ▸ rfl, ?_, r.toList ++ tr1, ?_, ?_⟩
        · rw [D1, stepApply_doc]
        · rw [A1, stepApply_applied hs, List.append_assoc]
        · intro x
          simp only [List.mem_append, M1 x]

/-- Handles over the same document whose applied restrictions have the same
members enumerate to the same element list. -/
theorem toElements_congr {a b : FilteredElementCollector}
    (hdoc : a.doc = b.doc)
    (hmem : ∀ x, x ∈ a.applied ↔ x ∈ b.applied) :
    a.toElements = b.toElements := by
  unfold FilteredElementCollector.toElements
  rw [hdoc]
  apply List.filter_congr
  intro e _
  cases hall1 : a.applied.all (fun r => Element.satisfies e r) <;>
    cases hall2 : b.applied.all (fun r => Element.satisfies e r)
  · rfl
  · exfalso
    rw [List.all_eq_true] at hall2
    have hcontr : a.applied.all (fun r => Element.satisfies e r) = true :=
      List.all_eq_true.mpr (fun r hr => hall2 r ((hmem r).mp hr))
    rw [hall1] at hcontr
    cases hcontr
  · exfalso
    rw [List.all_eq_true] at hall1
    have hcontr : b.applied.all (fun r => Element.satisfies e r) = true :=
      List.all_eq_true.mpr (fun r hr => hall1 r ((hmem r).mpr hr))
    rw [hall2] at hcontr
    cases hcontr
  · rfl

/-- Element-set form of the main equivalence: over a real dict, the chain and
the once-each fold fail identically and enumerate to identical element lists. -/
theorem chain_fold_elems (l : List (String × FValue)) (hnd : NodupKeys l)
    (c : FilteredElementCollector) :
    (chainCall l c).2 = (chainFoldSpec l c).2 ∧
    (chainCall l c).1.toElements = (chainFoldSpec l c).1.toElements := by
  rw [chainCall_eq_chainNodup l hnd]
  obtain ⟨E, D, tr, A, M⟩ := chainNodup_fold l c
  obtain ⟨FD, FA⟩ := fold_state l c
  refine ⟨E, toElements_congr ?_ ?_⟩
  · rw [D, FD]
  · intro x
    rw [A, FA]
    simp only [List.mem_append, M x]

/-- A criteria list containing a name outside MAP makes the fold fail. -/
theorem fold_bad (l : List (String × FValue)) :
    (∃ p ∈ l, dictGet FilterMAP p.1 = none) →
    ∀ c, ((chainFoldSpec l c).2).isSome = true := by
  induction l with
  | nil =>
    rintro ⟨p, hp, _⟩
    cases hp
  | cons q rest ih =>
    rintro ⟨p, hp, hbad⟩ c
    rcases List.mem_cons.mp hp with rfl | hmem
    · have hq : stepRes p = Except.error (PyError.keyError p.1) := by
        unfold stepRes
        rw [hbad]
      rw [fold_cons_err hq]
      rfl
    · rcases hs : stepRes q with e | r
      · rw [fold_cons_err hs]
        rfl
      · rw [fold_cons_ok hs]
        exact ih ⟨p, hmem, hbad⟩ _

/-- A boolean-false criterion on a supported name is skipped by the fold. -/
theorem fold_skip_false {k : String} (hk : (dictGet FilterMAP k).isSome = true)
    (l1 l2 : List (String × FValue)) :
    ∀ c, chainFoldSpec (l1 ++ (k, FValue.vbool false) :: l2) c
        = chainFoldSpec (l1 ++ l2) c := by
  induction l1 with
  | nil =>
    intro c
    have hs : stepRes (k, FValue.vbool false) = Except.ok none := by
      unfold stepRes
      rcases hm : dictGet FilterMAP k with _ | m
      · rw [hm] at hk
        cases hk
      · simp
    have hsa : stepApply (k, FValue.vbool false) c = c := by
      unfold stepApply
      rw [hs]
    rw [List.nil_append, List.nil_append, fold_cons_ok hs, hsa]
  | cons q l1 ih =>
    intro c
    rw [List.cons_append, List.cons_append]
    rcases hs : stepRes q with e | r
    · rw [fold_cons_err hs, fold_cons_err hs]
    · rw [fold_cons_ok hs, fold_cons_ok hs]
      exact ih _

/-- If no binding of k exists, k is not among the keys. -/
theorem not_mem_keys_of_any_false {α : Type} {d : List (String × α)} {k : String}
    (h : d.any (fun p => p.1 == k) = false) : k ∉ keys d := by
  intro hk
  simp only [keys, List.mem_map] at hk
  rcases hk with ⟨p, hp, hpk⟩
  have htrue : d.any (fun p => p.1 == k) = true :=
    List.any_eq_true.mpr ⟨p, hp, by simp [hpk]⟩
  rw [h] at htrue
  cases htrue

/-- In-place assignment of an existing key does not change the key list. -/
theorem keys_dictSet_of_any {α : Type} {d : List (String × α)} {k : String} (v : α)
    (h : d.any (fun p => p.1 == k) = true) : keys (dictSet d k v) = keys d := by
  unfold dictSet
  rw [if_pos h]
  unfold keys
  rw [List.map_map]
  apply List.map_congr_left
  intro p _
  by_cases hpk : p.1 == k
  · simp only [Function.comp_apply, hpk, if_pos]
    exact (eq_of_beq hpk).symm
  · simp only [Function.comp_apply, hpk]
    rw [if_neg (by simp [hpk])]

/-- Dict assignment preserves distinctness of keys. -/
theorem nodupKeys_dictSet {α : Type} {d : List (String × α)} (k : String) (v : α)
    (h : NodupKeys d) : NodupKeys (dictSet d k v) := by
  by_cases hany : d.any (fun p => p.1 == k) = true
  · unfold NodupKeys
    rw [keys_dictSet_of_any v hany]
    exact h
  · unfold NodupKeys dictSet
    rw [if_neg hany]
    unfold keys
    rw [List.map_append]
    apply List.Nodup.append h (List.nodup_singleton k)
    intro a ha hb
    simp only [List.map_cons, List.map_nil, List.mem_singleton] at hb
    subst hb
    exact not_mem_keys_of_any_false (Bool.eq_false_iff.mpr hany) ha

/-- Merging a list of assignments into a real dict keeps the keys distinct. -/
theorem nodupKeys_merge {α : Type} (l : List (String × α)) :
    ∀ d, NodupKeys d → NodupKeys (l.foldl (fun acc p => dictSet acc p.1 p.2) d) := by
  induction l with
  | nil => intro d h; exact h
  | cons p rest ih =>
    intro d h
    exact ih _ (nodupKeys_dictSet p.1 p.2 h)

/-- Assignment of a key whose binding is not at the head walks past the head. -/
theorem dictSet_cons_ne {α : Type} (q : String × α) (d : List (String × α))
    (k : String) (v : α) (hqk : (q.1 == k) = false) :
    dictSet (q :: d) k v = q :: dictSet d k v := by
  unfold dictSet
  by_cases hany : d.any (fun p => p.1 == k) = true
  · rw [if_pos (by simp [List.any_cons, hqk, hany]), if_pos hany, List.map_cons]
    rw [if_neg (by simp [hqk])]
  · rw [if_neg (by simp [List.any_cons, hqk, hany]), if_neg hany]
    rfl

/-- Replacing the value bound to k does not disturb lookups of other keys. -/
theorem dictGet_mapSet_ne {α : Type} (d : List (String × α)) {k k' : String} (v : α)
    (hne : k' ≠ k) :
    dictGet (d.map (fun p => if p.1 == k then (k, v) else p)) k' = dictGet d k' := by
  induction d with
  | nil => rfl
  | cons q d ih =>
    unfold dictGet at ih ⊢
    rw [List.map_cons]
    by_cases hqk : (q.1 == k) = true
    · have hq1 : (q.1 == k') = false := by
        have : q.1 = k := eq_of_beq hqk
        simp [this, Ne.symm hne]
      rw [List.find?_cons_of_neg, List.find?_cons_of_neg]
      · exact ih
      · simp [hq1]
      · rw [if_pos hqk]
        simp [Ne.symm hne]
    · rw [if_neg hqk]
      by_cases hq' : (q.1 == k') = true
      · rw [List.find?_cons_of_pos, List.find?_cons_of_pos]
        · simp [hq']
        · simp [hq']
      · rw [List.find?_cons_of_neg, List.find?_cons_of_neg]
        · exact ih
        · simp [hq']
        · simp [hq']

/-- Looking up the assigned key after an assignment yields the new value. -/
theorem dictGet_dictSet_self {α : Type} (d : List (String × α)) (k : String) (v : α) :
    dictGet (dictSet d k v) k = some v := by
  induction d with
  | nil =>
    simp [dictGet, dictSet]
  | cons q d ih =>
    by_cases hqk : (q.1 == k) = true
    · unfold dictSet
      rw [if_pos (by simp [List.any_cons, hqk]), List.map_cons, if_pos hqk]
      unfold dictGet
      rw [List.find?_cons_of_pos _ (by simp)]
      simp
    · rw [dictSet_cons_ne q d k v (by simp [hqk])]
      unfold dictGet
      rw [List.find?_cons_of_neg]
      · exact ih
      · simp [hqk]

/-- Looking up a different key after an assignment is unchanged. -/
theorem dictGet_dictSet_ne {α : Type} (d : List (String × α)) {k k' : String} (v : α)
    (hne : k' ≠ k) : dictGet (dictSet d k v) k' = dictGet d k' := by
  unfold dictSet
  by_cases hany : d.any (fun p => p.1 == k) = true
  · rw [if_pos hany]
    exact dictGet_mapSet_ne d v hne
  · rw [if_neg hany]
    unfold dictGet
    rw [List.find?_append]
    have h2 : List.find? (fun p => p.1 == k') [(k, v)] = none := by
      simp [List.find?_cons, Ne.symm hne]
    rw [h2]
    simp

/-- A successful engine-table lookup never fails with the wrapper's exception:
the only error the table raises is TypeError. -/
theorem invokeRes_err {method : String} {arg : Option InvokeArg} {e : PyError}
    (h : invokeRes method arg = Except.error e) : e = PyError.typeError := by
  unfold invokeRes at h
  split at h
  · cases h
  · cases h
  · cases h
  · cases h
  · cases h
  · cases h
  · injection h with h2
    exact h2.symm

/-- Every error a loop iteration can raise: KeyError from the MAP lookup,
AttributeError from a ParameterFilter with no predicate, or TypeError from the
engine — never the RPW_Exception of the dead check on lines 140-141. -/
theorem stepRes_err_shape {k : String} {v : FValue} {e : PyError}
    (h : stepRes (k, v) = Except.error e) :
    e = PyError.keyError k ∨ e = PyError.attributeError ("_revit_object")
      ∨ e = PyError.typeError := by
  unfold stepRes at h
  rcases hm : dictGet FilterMAP k with _ | method <;> rw [hm] at h <;> dsimp only at h
  · left
    injection h with h2
    exact h2.symm
  · cases v <;> try dsimp only at h
    case vbool b =>
      cases b <;> try dsimp only at h
      · cases h
      · rcases hr : invokeRes method none with e2 | r <;> rw [hr] at h <;>
          try dsimp only at h
        · right; right
          injection h with h2
          rw [← h2]
          exact invokeRes_err hr
        · cases h
    case vparamFilter pf =>
      rcases ho : pf.revit_object with _ | epf <;> rw [ho] at h <;> try dsimp only at h
      · right; left
        injection h with h2
        exact h2.symm
      · rcases hr : invokeRes method (some (InvokeArg.pred epf)) with e2 | r <;>
          rw [hr] at h <;> try dsimp only at h
        · right; right
          injection h with h2
          rw [← h2]
          exact invokeRes_err hr
        · cases h
    case vstr t =>
      rcases hr : invokeRes method (some (InvokeArg.val (FValue.vstr t))) with e2 | r <;>
        rw [hr] at h <;> try dsimp only at h
      · right; right
        injection h with h2
        rw [← h2]
        exact invokeRes_err hr
      · cases h
    case vclass cc =>
      rcases hr : invokeRes method (some (InvokeArg.val (FValue.vclass cc))) with e2 | r <;>
        rw [hr] at h <;> try dsimp only at h
      · right; right
        injection h with h2
        rw [← h2]
        exact invokeRes_err hr
      · cases h
    case vcat cc =>
      rcases hr : invokeRes method (some (InvokeArg.val (FValue.vcat cc))) with e2 | r <;>
        rw [hr] at h <;> try dsimp only at h
      · right; right
        injection h with h2
        rw [← h2]
        exact invokeRes_err hr
      · cases h
    case vint n =>
      rcases hr : invokeRes method (some (InvokeArg.val (FValue.vint n))) with e2 | r <;>
        rw [hr] at h <;> try dsimp only at h
      · right; right
        injection h with h2
        rw [← h2]
        exact invokeRes_err hr
      · cases h

/-- A key that dictGet finds is present. -/
theorem any_of_dictGet_some {α : Type} {d : List (String × α)} {k : String} {v : α}
    (h : dictGet d k = some v) : d.any (fun p => p.1 == k) = true := by
  unfold dictGet at h
  rcases hf : d.find? (fun p => p.1 == k) with _ | q
  · rw [hf] at h
    cases h
  · have hq := List.find?_some hf
    have hmem := List.mem_of_find?_eq_some hf
    exact List.any_eq_true.mpr ⟨q, hmem, hq⟩

/-- Coercing one key rewrites that key's value through coerceShorthand. -/
theorem coerceKey_get_self (resolve : String → FValue) (key : String)
    (d : List (String × FValue)) :
    dictGet (coerceKey resolve key d) key
      = (dictGet d key).map (coerceShorthand resolve) := by
  unfold coerceKey
  rcases hv : dictGet d key with _ | v
  · dsimp only
    exact hv
  · rcases v with s | cc | cc | n | b | pf
    case vstr =>
      dsimp only
      by_cases hs : s = ""
      · subst hs
        rw [if_neg (by simp), hv]
        simp [coerceShorthand]
      · rw [if_pos (by simp [hs]), dictGet_dictSet_self]
        simp [coerceShorthand, hs]
    all_goals
      dsimp only [coerceShorthand]
      exact hv

/-- Coercing one key leaves every other key's value alone. -/
theorem coerceKey_get_other (resolve : String → FValue) (key : String)
    (d : List (String × FValue)) {k' : String} (hne : k' ≠ key) :
    dictGet (coerceKey resolve key d) k' = dictGet d k' := by
  unfold coerceKey
  rcases hv : dictGet d key with _ | v
  · rfl
  · rcases v with s | cc | cc | n | b | pf
    case vstr =>
      dsimp only
      by_cases hs : s = ""
      · subst hs
        rw [if_neg (by simp)]
      · rw [if_pos (by simp [hs])]
        exact dictGet_dictSet_ne d _ hne
    all_goals rfl

/-- Coercing one key never changes the key list. -/
theorem coerceKey_keys (resolve : String → FValue) (key : String)
    (d : List (String × FValue)) : keys (coerceKey resolve key d) = keys d := by
  unfold coerceKey
  rcases hv : dictGet d key with _ | v
  · rfl
  · rcases v with s | cc | cc | n | b | pf
    case vstr =>
      dsimp only
      by_cases hs : s = ""
      · subst hs
        rw [if_neg (by simp)]
      · rw [if_pos (by simp [hs])]
        exact keys_dictSet_of_any _ (any_of_dictGet_some hv)
    all_goals rfl

/-- A fold that overwrites its accumulator with each item keeps the last. -/
theorem foldl_overwrite_last {α β : Type} (g : α → β) :
    ∀ (l : List α) (a : Option β) (p : α), l.getLast? = some p →
      l.foldl (fun _ x => some (g x)) a = some (g p) := by
  intro l
  induction l with
  | nil =>
    intro a p h
    cases h
  | cons x xs ih =>
    intro a p h
    rcases xs with _ | ⟨y, ys⟩
    · simp only [List.getLast?_singleton, Option.some.injEq] at h
      subst h
      rfl
    · rw [List.getLast?_cons_cons] at h
      rw [List.foldl_cons]
      exact ih _ p h

/-- Looking up a key in a dict extended by a different key is unchanged. -/
theorem dictGet_append_ne {α : Type} (d : List (String × α)) {k k' : String} (v : α)
    (hne : k ≠ k') : dictGet (d ++ [(k, v)]) k' = dictGet d k' := by
  unfold dictGet
  rw [List.find?_append]
  have h2 : List.find? (fun p => p.1 == k') [(k, v)] = none := by
    simp [hne]
  rw [h2]
  simp

/-- Appending a condition whose key is no comparator key leaves the valid
comparator list unchanged. -/
theorem validConds_append_invalid (conds : List (String × CValue)) {k : String}
    (v : CValue) (h : dictGet ParameterFilter.RULES k = none) :
    validConds (conds ++ [(k, v)]) = validConds conds := by
  unfold validConds
  rw [List.filter_append]
  have h2 : List.filter (fun p => (dictGet ParameterFilter.RULES p.1).isSome) [(k, v)]
      = [] := by
    simp [h]
  rw [h2, List.append_nil]

/-- Evaluation form of filterCall: over a real dict the chain may be replaced
by its structural companion. -/
theorem filterCall_eval (byName dbattr : String → ℕ) (col : Collector)
    (kwargs : List (String × FValue))
    (hnd : NodupKeys (mergedFilters byName dbattr col kwargs)) :
    Collector.filterCall byName dbattr col kwargs =
      (match chainNodup (mergedFilters byName dbattr col kwargs) col.revit_object with
       | (fec, some e) =>
         ({ col with
             filters := mergedFilters byName dbattr col kwargs
             revit_object := fec }, some e)
       | (fec, none) =>
         ({ col with
             filters := mergedFilters byName dbattr col kwargs
             revit_object := fec
             elements := fec.toElements }, none)) := by
  unfold Collector.filterCall
  dsimp only
  rw [chainCall_eq_chainNodup _ hnd]

/-- The stored predicate of a constructed ParameterFilter is the one built
from the last valid comparator condition, when one exists. -/
theorem init_revit_object_last (pid : ℕ) (conds : List (String × CValue))
    (p : String × CValue) (hlast : (validConds conds).getLast? = some p) :
    (ParameterFilter.init pid conds).revit_object
      = some (buildRule pid (caseSensitiveOf conds) (reverseOf conds) p) := by
  show (validConds conds).foldl
      (fun _ q => some (buildRule pid (caseSensitiveOf conds) (reverseOf conds) q)) none
    = some (buildRule pid (caseSensitiveOf conds) (reverseOf conds) p)
  exact foldl_overwrite_last (buildRule pid (caseSensitiveOf conds) (reverseOf conds))
    (validConds conds) none p hlast

/-- Claim C7: Rule Builder last-wins — with more than one recognized comparator
key among the conditions, the predicate object stored on the rule is the one
built from the last comparator key observed during iteration. -/
theorem C7_last_comparator_wins (pid : ℕ) (conds : List (String × CValue))
    (p : String × CValue) (hlast : (validConds conds).getLast? = some p)
    (hmulti : 2 ≤ (validConds conds).length) :
    (ParameterFilter.init pid conds).revit_object
      = some (buildRule pid (caseSensitiveOf conds) (reverseOf conds) p) :=
  init_revit_object_last pid conds p hlast

/-- Witness for C7 at two comparator keys: the later one, less, wins. -/
theorem C7_witness :
    (ParameterFilter.init 3 [("equals", CValue.vint 1), ("less", CValue.vint 9)]).revit_object
      = some (buildRule 3
          (caseSensitiveOf [("equals", CValue.vint 1), ("less", CValue.vint 9)])
          (reverseOf [("equals", CValue.vint 1), ("less", CValue.vint 9)])
          ("less", CValue.vint 9)) :=
  C7_last_comparator_wins 3 [("equals", CValue.vint 1), ("less", CValue.vint 9)]
    ("less", CValue.vint 9) (by decide) (by decide)

/-- Claim C8: a floating-point comparator operand is passed to the rule factory
with the fixed literal tolerance 1.0 appended; the recorded precision field
(defaulting to FLOAT_PRECISION) is never passed — the stored predicate depends
only on the comparator conditions and the case_sensitive/reverse modifiers; a
textual operand gets the effective case_sensitive flag appended instead. -/
theorem C8_float_tolerance_fixed (pid : ℕ) (conds : List (String × CValue)) (k : String) :
    (∀ q : ℚ, (validConds conds).getLast? = some (k, CValue.vfloat q) →
      (ParameterFilter.init pid conds).revit_object = some
        { rule := { factory := (dictGet ParameterFilter.RULES k).getD ("")
                    paramId := pid
                    args := [CValue.vfloat q, CValue.vfloat 1] }
          reverse := reverseOf conds }) ∧
    (∀ s : String, (validConds conds).getLast? = some (k, CValue.vstr s) →
      (ParameterFilter.init pid conds).revit_object = some
        { rule := { factory := (dictGet ParameterFilter.RULES k).getD ("")
                    paramId := pid
                    args := [CValue.vstr s, caseSensitiveOf conds] }
          reverse := reverseOf conds }) ∧
    ((ParameterFilter.init pid conds).precision
        = (dictGet conds ("precision")).getD (CValue.vfloat ParameterFilter.FLOAT_PRECISION)) ∧
    (∀ conds2 : List (String × CValue),
      validConds conds2 = validConds conds →
      caseSensitiveOf conds2 = caseSensitiveOf conds →
      reverseOf conds2 = reverseOf conds →
      (ParameterFilter.init pid conds2).revit_object
        = (ParameterFilter.init pid conds).revit_object) := by
  refine ⟨?_, ?_, rfl, ?_⟩
  · intro q hlast
    rw [init_revit_object_last pid conds _ hlast]
    rfl
  · intro s hlast
    rw [init_revit_object_last pid conds _ hlast]
    rfl
  · intro conds2 h1 h2 h3
    show (validConds conds2).foldl
        (fun _ p => some (buildRule pid (caseSensitiveOf conds2) (reverseOf conds2) p)) none
      = (validConds conds).foldl
        (fun _ p => some (buildRule pid (caseSensitiveOf conds) (reverseOf conds) p)) none
    rw [h1, h2, h3]

/-- Witness for C8 at a float operand with an explicit precision entry: the
args end in the literal 1.0 and the precision entry does not matter. -/
theorem C8_witness :
    (ParameterFilter.init 1 [("greater", CValue.vfloat 2)]).revit_object = some
      { rule := { factory := (dictGet ParameterFilter.RULES ("greater")).getD ("")
                  paramId := 1
                  args := [CValue.vfloat 2, CValue.vfloat 1] }
        reverse := reverseOf [("greater", CValue.vfloat 2)] } ∧
    (ParameterFilter.init 1
        [("greater", CValue.vfloat 2), ("precision", CValue.vfloat 9)]).revit_object
      = (ParameterFilter.init 1 [("greater", CValue.vfloat 2)]).revit_object :=
  ⟨(C8_float_tolerance_fixed 1 [("greater", CValue.vfloat 2)] ("greater")).1 2 (by decide),
   (C8_float_tolerance_fixed 1 [("greater", CValue.vfloat 2)] ("greater")).2.2.2
     [("greater", CValue.vfloat 2), ("precision", CValue.vfloat 9)]
     (by decide) (by decide) (by decide)⟩

/-- Claim C9 counterexample: case_sensitive is a condition key outside the
recognized comparator set, yet supplying it changes the constructed predicate
(the flag is appended to a string operand's args), so such keys are not all
ignored. -/
theorem C9_counterexample :
    (ParameterFilter.init 0
        [("equals", CValue.vstr "x"), ("case_sensitive", CValue.vbool false)]).revit_object
      = some
        { rule := { factory := ("CreateEqualsRule")
                    paramId := 0
                    args := [CValue.vstr "x", CValue.vbool false] }
          reverse := CValue.vbool false } ∧
    (ParameterFilter.init 0 [("equals", CValue.vstr "x")]).revit_object
      = some
        { rule := { factory := ("CreateEqualsRule")
                    paramId := 0
                    args := [CValue.vstr "x", CValue.vbool true] }
          reverse := CValue.vbool false } ∧
    decide ((ParameterFilter.init 0
        [("equals", CValue.vstr "x"), ("case_sensitive", CValue.vbool false)]).revit_object
      = (ParameterFilter.init 0 [("equals", CValue.vstr "x")]).revit_object) = false := by
  decide

/-- Claim C9 (amended): a condition key that is neither a recognized comparator
key nor one of the modifier keys case_sensitive, reverse, precision is silently
ignored — adding it changes neither the stored predicate nor the recorded
modifiers — and construction never raises (the constructor is total). -/
theorem C9_unknown_keys_ignored (pid : ℕ) (conds : List (String × CValue))
    (k : String) (v : CValue)
    (h1 : dictGet ParameterFilter.RULES k = none)
    (h2 : k ≠ "case_sensitive") (h3 : k ≠ "reverse") (h4 : k ≠ "precision") :
    (ParameterFilter.init pid (conds ++ [(k, v)])).revit_object
        = (ParameterFilter.init pid conds).revit_object ∧
    (ParameterFilter.init pid (conds ++ [(k, v)])).case_sensitive
        = (ParameterFilter.init pid conds).case_sensitive ∧
    (ParameterFilter.init pid (conds ++ [(k, v)])).reverse
        = (ParameterFilter.init pid conds).reverse ∧
    (ParameterFilter.init pid (conds ++ [(k, v)])).precision
        = (ParameterFilter.init pid conds).precision := by
  have hcs : caseSensitiveOf (conds ++ [(k, v)]) = caseSensitiveOf conds := by
    unfold caseSensitiveOf
    rw [dictGet_append_ne conds v h2]
  have hrv : reverseOf (conds ++ [(k, v)]) = reverseOf conds := by
    unfold reverseOf
    rw [dictGet_append_ne conds v h3]
  have hpr : precisionOf (conds ++ [(k, v)]) = precisionOf conds := by
    unfold precisionOf
    rw [dictGet_append_ne conds v h4]
  have hvc : validConds (conds ++ [(k, v)]) = validConds conds :=
    validConds_append_invalid conds v h1
  refine ⟨?_, hcs, hrv, hpr⟩
  show (validConds (conds ++ [(k, v)])).foldl
      (fun _ p => some (buildRule pid (caseSensitiveOf (conds ++ [(k, v)]))
        (reverseOf (conds ++ [(k, v)])) p)) none
    = (validConds conds).foldl
      (fun _ p => some (buildRule pid (caseSensitiveOf conds) (reverseOf conds) p)) none
  rw [hvc, hcs, hrv]

/-- Witness for C9 at a bogus condition key. -/
theorem C9_witness :
    (ParameterFilter.init 2
        [("equals", CValue.vstr "x"), ("bogus", CValue.vint 5)]).revit_object
      = (ParameterFilter.init 2 [("equals", CValue.vstr "x")]).revit_object ∧
    (ParameterFilter.init 2
        [("equals", CValue.vstr "x"), ("bogus", CValue.vint 5)]).case_sensitive
      = (ParameterFilter.init 2 [("equals", CValue.vstr "x")]).case_sensitive ∧
    (ParameterFilter.init 2
        [("equals", CValue.vstr "x"), ("bogus", CValue.vint 5)]).reverse
      = (ParameterFilter.init 2 [("equals", CValue.vstr "x")]).reverse ∧
    (ParameterFilter.init 2
        [("equals", CValue.vstr "x"), ("bogus", CValue.vint 5)]).precision
      = (ParameterFilter.init 2 [("equals", CValue.vstr "x")]).precision :=
  C9_unknown_keys_ignored 2 [("equals", CValue.vstr "x")] ("bogus") (CValue.vint 5)
    (by decide) (by decide) (by decide) (by decide)

/-- Claim C10: with no recognized comparator key among the conditions the
constructor still succeeds but never assigns the wrapped predicate attribute,
and a later use of the rule as a parameter_filter criterion fails with
AttributeError when the chain reads the missing attribute. -/
theorem C10_unset_revit_object (pid : ℕ) (conds : List (String × CValue))
    (hvalid : validConds conds = []) (c : FilteredElementCollector) :
    (ParameterFilter.init pid conds).revit_object = none ∧
    applyFilterStep ("parameter_filter", FValue.vparamFilter (ParameterFilter.init pid conds)) c
      = (c, some (PyError.attributeError ("_revit_object"))) := by
  have hro : (ParameterFilter.init pid conds).revit_object = none := by
    show (validConds conds).foldl
        (fun _ p => some (buildRule pid (caseSensitiveOf conds) (reverseOf conds) p)) none
      = none
    rw [hvalid]
    rfl
  refine ⟨hro, ?_⟩
  unfold applyFilterStep
  have hm : dictGet FilterMAP ("parameter_filter") = some ("WherePasses") := by decide
  rw [hm]
  dsimp only
  rw [if_neg (by simp), hro]

/-- Witness for C10 at a conditions dict with only a bogus key. -/
theorem C10_witness :
    (ParameterFilter.init 5 [("bogus", CValue.vint 1)]).revit_object = none ∧
    applyFilterStep ("parameter_filter",
        FValue.vparamFilter (ParameterFilter.init 5 [("bogus", CValue.vint 1)])) fec0
      = (fec0, some (PyError.attributeError ("_revit_object"))) :=
  C10_unset_revit_object 5 [("bogus", CValue.vint 1)] (by decide) fec0

/-- Claim C1 counterexample: filter with an unsupported criterion raises, and
the prior elements list survives, but the accumulated criteria dict has
already been merged — it now holds the unsupported key, so the prior criteria
state is NOT left unchanged. -/
theorem C1_counterexample :
    (Collector.filterCall byName0 dbattr0 col0 [("bogus_key", FValue.vint 1)]).1.filters
      = [("bogus_key", FValue.vint 1)] ∧
    col0.filters = [] ∧
    (Collector.filterCall byName0 dbattr0 col0 [("bogus_key", FValue.vint 1)]).2
      = some (PyError.keyError ("bogus_key")) := by
  rw [filterCall_eval byName0 dbattr0 col0 [("bogus_key", FValue.vint 1)] (by decide)]
  decide

/-- Claim C1 (amended): when the merged criteria contain an unsupported name
the call fails and the prior elements list is unchanged, but the accumulated
criteria dict has already been replaced by the merge of old and new criteria
(failure is not atomic on the criteria state). -/
theorem C1_nonatomic_failure (byName dbattr : String → ℕ) (col : Collector)
    (kwargs : List (String × FValue)) (hnd : NodupKeys col.filters)
    (hbad : ∃ p ∈ mergedFilters byName dbattr col kwargs, dictGet FilterMAP p.1 = none) :
    ((Collector.filterCall byName dbattr col kwargs).2).isSome = true ∧
    (Collector.filterCall byName dbattr col kwargs).1.elements = col.elements ∧
    (Collector.filterCall byName dbattr col kwargs).1.filters
        = mergedFilters byName dbattr col kwargs := by
  have hndm : NodupKeys (mergedFilters byName dbattr col kwargs) :=
    nodupKeys_merge (coerce_filter_values byName dbattr kwargs) col.filters hnd
  have herr : ((chainCall (mergedFilters byName dbattr col kwargs)
      col.revit_object).2).isSome = true := by
    rw [chainCall_eq_chainNodup _ hndm,
      (chainNodup_fold (mergedFilters byName dbattr col kwargs) col.revit_object).1]
    exact fold_bad _ hbad col.revit_object
  unfold Collector.filterCall
  dsimp only
  rcases hc : chainCall (mergedFilters byName dbattr col kwargs) col.revit_object
    with ⟨fec, _ | e⟩
  · rw [hc] at herr
    cases herr
  · exact ⟨rfl, rfl, rfl⟩

/-- Witness for C1 on a collector that already holds criteria and elements. -/
theorem C1_witness :
    ((Collector.filterCall byName0 dbattr0 col2 [("bogus_key", FValue.vint 1)]).2).isSome
      = true ∧
    (Collector.filterCall byName0 dbattr0 col2 [("bogus_key", FValue.vint 1)]).1.elements
      = col2.elements ∧
    (Collector.filterCall byName0 dbattr0 col2 [("bogus_key", FValue.vint 1)]).1.filters
      = mergedFilters byName0 dbattr0 col2 [("bogus_key", FValue.vint 1)] :=
  C1_nonatomic_failure byName0 dbattr0 col2 [("bogus_key", FValue.vint 1)] (by decide)
    ⟨("bogus_key", FValue.vint 1), by decide, by decide⟩

/-- Claim C2 (code bug): an unsupported criterion name makes the call fail with
KeyError raised by the MAP lookup on line 138, before any restriction for that
name; the dedicated check on lines 140-141 that would raise the wrapper's
RPW_Exception is unreachable — no loop iteration ever raises it. -/
theorem C2_unsupported_raises_keyerror :
    (Collector.filterCall byName0 dbattr0 col0 [("bogus_key", FValue.vint 1)]).2
        = some (PyError.keyError ("bogus_key")) ∧
    (∀ (k : String) (v : FValue) (c : FilteredElementCollector),
      dictGet FilterMAP k = none →
        applyFilterStep (k, v) c = (c, some (PyError.keyError k))) ∧
    (∀ (k : String) (v : FValue) (c : FilteredElementCollector) (s : String),
      ((applyFilterStep (k, v) c).2 = some (PyError.rpwException s)) → False) := by
  refine ⟨?_, ?_, ?_⟩
  · rw [filterCall_eval byName0 dbattr0 col0 [("bogus_key", FValue.vint 1)] (by decide)]
    decide
  · intro k v c h
    unfold applyFilterStep
    rw [h]
  · intro k v c s h
    rw [step_spec] at h
    rcases hs : stepRes (k, v) with e | r
    · rw [hs] at h
      dsimp only at h
      injection h with h2
      rcases stepRes_err_shape hs with h3 | h3 | h3 <;> rw [h3] at h2 <;> cases h2
    · rw [hs] at h
      rcases r with _ | r <;> dsimp only at h <;> cases h

/-- Claim C3 counterexample: on two criteria the chain performs three
restriction applications while the once-each fold performs two, and the
returned handles differ — the chain is not the fold that applies each
criterion exactly once. -/
theorem C3_counterexample :
    (chainCall cex3 fec0).1.applied.length = 3 ∧
    (chainFoldSpec cex3 fec0).1.applied.length = 2 ∧
    decide (chainCall cex3 fec0 = chainFoldSpec cex3 fec0) = false := by
  rw [chainCall_eq_chainNodup cex3 (by decide) fec0]
  decide

/-- Claim C3 (amended): over any criteria dict the chain fails exactly when the
once-each fold fails, and on the same error; and the handle it returns
enumerates to exactly the element list of the fold's handle — the repeated
applications the chain performs are idempotent and invisible in the element
set. -/
theorem C3_chain_equals_fold_elements (l : List (String × FValue)) (hnd : NodupKeys l)
    (c : FilteredElementCollector) :
    (chainCall l c).2 = (chainFoldSpec l c).2 ∧
    (chainCall l c).1.toElements = (chainFoldSpec l c).1.toElements :=
  chain_fold_elems l hnd c

/-- Witness for C3 on a two-criterion dict over a two-element document. -/
theorem C3_witness :
    (chainCall cex3 fec1).2 = (chainFoldSpec cex3 fec1).2 ∧
    (chainCall cex3 fec1).1.toElements = (chainFoldSpec cex3 fec1).1.toElements :=
  C3_chain_equals_fold_elements cex3 (by decide) fec1

/-- Claim C4: a boolean criterion applies its zero-argument restriction when
true and applies nothing (without error) when false, so a false boolean key
yields the same element set and the same error behavior as omitting the key. -/
theorem C4_boolean_asymmetry (k : String)
    (hk : k = "is_element" ∨ k = "is_element_type" ∨ k = "is_view_independent")
    (l1 l2 : List (String × FValue))
    (hnd : NodupKeys (l1 ++ (k, FValue.vbool false) :: l2)) (c : FilteredElementCollector) :
    stepRes (k, FValue.vbool true) = Except.ok (some (boolRestriction k)) ∧
    stepRes (k, FValue.vbool false) = Except.ok none ∧
    (chainCall (l1 ++ (k, FValue.vbool false) :: l2) c).1.toElements
        = (chainCall (l1 ++ l2) c).1.toElements ∧
    (chainCall (l1 ++ (k, FValue.vbool false) :: l2) c).2 = (chainCall (l1 ++ l2) c).2 := by
  have hmap : (dictGet FilterMAP k).isSome = true := by
    rcases hk with rfl | rfl | rfl <;> decide
  have hnd2 : NodupKeys (l1 ++ l2) := by
    unfold NodupKeys keys at hnd ⊢
    rw [List.map_append] at hnd ⊢
    rw [List.map_cons] at hnd
    exact List.Nodup.sublist
      (List.Sublist.append_left (List.sublist_cons_self _ _) _) hnd
  have hfold := fold_skip_false hmap l1 l2 c
  obtain ⟨E1, T1⟩ := chain_fold_elems (l1 ++ (k, FValue.vbool false) :: l2) hnd c
  obtain ⟨E2, T2⟩ := chain_fold_elems (l1 ++ l2) hnd2 c
  refine ⟨?_, ?_, ?_, ?_⟩
  · rcases hk with rfl | rfl | rfl <;> rfl
  · rcases hk with rfl | rfl | rfl <;> rfl
  · rw [T1, T2, hfold]
  · rw [E1, E2, hfold]

/-- Witness for C4: is_element_type=false beside an of_class criterion gives
the same run as leaving the key out. -/
theorem C4_witness :
    stepRes ("is_element_type", FValue.vbool true)
        = Except.ok (some (boolRestriction ("is_element_type"))) ∧
    stepRes ("is_element_type", FValue.vbool false) = Except.ok none ∧
    (chainCall [("of_class", FValue.vclass 1), ("is_element_type", FValue.vbool false)]
        fec1).1.toElements
      = (chainCall [("of_class", FValue.vclass 1)] fec1).1.toElements ∧
    (chainCall [("of_class", FValue.vclass 1), ("is_element_type", FValue.vbool false)]
        fec1).2
      = (chainCall [("of_class", FValue.vclass 1)] fec1).2 :=
  C4_boolean_asymmetry ("is_element_type") (Or.inr (Or.inl rfl))
    [("of_class", FValue.vclass 1)] [] (by decide) fec1

/-- Claim C5 counterexample: coercion resolves the string shorthand, but the
source performs the resolution by assigning into the dict it was given and
returning that same dict — so the caller-supplied mapping after the call (the
function's result) is not the mapping that was supplied: the step has a side
effect on its argument. -/
theorem C5_counterexample :
    coerce_filter_values byName0 dbattr0 [("of_category", FValue.vstr "OST_Walls")]
      = [("of_category", FValue.vcat 7)] ∧
    decide (coerce_filter_values byName0 dbattr0 [("of_category", FValue.vstr "OST_Walls")]
      = [("of_category", FValue.vstr "OST_Walls")]) = false := by
  decide

/-- Claim C5 (amended): coercion is pass-through-preserving as a value map —
keys unchanged, nonempty string values of of_category and of_class resolved
through the registries, all other entries and non-string values unchanged —
but it updates the caller-supplied dict in place and returns that same dict,
so the caller's mapping after the call equals the returned mapping rather
than the original. -/
theorem C5_coercion_resolves (byName dbattr : String → ℕ)
    (m : List (String × FValue)) :
    keys (coerce_filter_values byName dbattr m) = keys m ∧
    dictGet (coerce_filter_values byName dbattr m) ("of_category")
      = (dictGet m ("of_category")).map (coerceShorthand (fun s => FValue.vcat (byName s))) ∧
    dictGet (coerce_filter_values byName dbattr m) ("of_class")
      = (dictGet m ("of_class")).map (coerceShorthand (fun s => FValue.vclass (dbattr s))) ∧
    (∀ k2 : String, k2 ≠ "of_category" → k2 ≠ "of_class" →
      dictGet (coerce_filter_values byName dbattr m) k2 = dictGet m k2) := by
  unfold coerce_filter_values
  refine ⟨?_, ?_, ?_, ?_⟩
  · rw [coerceKey_keys, coerceKey_keys]
  · rw [coerceKey_get_other _ _ _ (by decide), coerceKey_get_self]
  · rw [coerceKey_get_self, coerceKey_get_other _ _ _ (by decide)]
  · intro k2 h1 h2
    rw [coerceKey_get_other _ _ _ h2, coerceKey_get_other _ _ _ h1]

/-- Claim C6 counterexample: on a freshly constructed collector over a
two-element document, whose elements list is empty, filter({}) recomputes the
elements as the enumeration of the unrestricted handle — the elements list
changes from empty to the whole document. -/
theorem C6_counterexample :
    (Collector.filterCall byName0 dbattr0 col1 []).1.elements = [elem0, elem1] ∧
    col1.elements = [] := by
  rw [filterCall_eval byName0 dbattr0 col1 [] (by decide)]
  decide

/-- Claim C6 (amended): on a collector whose elements list already reflects the
chain of its accumulated criteria (as any state left by a successful filter
call does), filter with empty criteria leaves both the criteria dict and the
elements list unchanged and raises nothing. -/
theorem C6_empty_filter_idempotent (byName dbattr : String → ℕ) (col : Collector)
    (hok : (chainCall col.filters col.revit_object).2 = none)
    (hinv : col.elements = (chainCall col.filters col.revit_object).1.toElements) :
    (Collector.filterCall byName dbattr col []).1.filters = col.filters ∧
    (Collector.filterCall byName dbattr col []).1.elements = col.elements ∧
    (Collector.filterCall byName dbattr col []).2 = none := by
  have hm : mergedFilters byName dbattr col [] = col.filters := rfl
  unfold Collector.filterCall
  dsimp only
  rw [hm]
  rcases hc : chainCall col.filters col.revit_object with ⟨fec, _ | e⟩
  · dsimp only
    rw [hc] at hinv
    exact ⟨rfl, hinv.symm, rfl⟩
  · rw [hc] at hok
    dsimp only at hok
    cases hok

/-- Witness for C6 on the empty fresh collector, whose elements list does
reflect its (empty) criteria over the empty document. -/
theorem C6_witness :
    (Collector.filterCall byName0 dbattr0 col0 []).1.filters = col0.filters ∧
    (Collector.filterCall byName0 dbattr0 col0 []).1.elements = col0.elements ∧
    (Collector.filterCall byName0 dbattr0 col0 []).2 = none :=
  C6_empty_filter_idempotent byName0 dbattr0 col0
    (show (chainCall [] fec0).2 = none by rw [chainCall_nil])
    (show ([] : List Element) = (chainCall [] fec0).1.toElements by
      rw [chainCall_nil]
      rfl)
